import Mathlib

/-
  Verification development for the ordered-set tree library
  (AVL tree, red-black tree, Cartesian tree / treap, splay tree, skip list).

  The data structures are shallowly embedded as pointer machines: a state
  carries a store of nodes (a list indexed by allocation order, one node id
  per `std::make_shared` call), and every source function is translated
  statement by statement.  `std::shared_ptr<Node>` and `std::weak_ptr<Node>`
  fields become `Option Nat` (node ids); a locked weak pointer that was
  never assigned, or was reset, is `none`.  Node deallocation is not
  modelled: none of the concrete executions below ever reads a parent link
  of a node that the C++ program would already have destroyed.

  Loops and recursive descents take an explicit fuel argument; every
  concrete execution below uses fuel that exceeds the store size, so the
  fuel never runs out on the evaluated traces.

  Comparison semantics for `std::optional` values (the trees store
  `std::optional<T>` and the end sentinel holds `nullopt`):
  the repository defines `operator<(const std::optional<T>&, const
  std::optional<T>&)` (abstract_tree.h / cartesian_tree.h) as
  `lhs && (!rhs || *lhs < *rhs)` - nullopt is larger than every value -
  and `operator<(const T&, const std::optional<T>&)` (rb_tree.h) as
  `!value2 || value1 < *value2`.  These same-type templates are more
  specialised than the std ones and win overload resolution.  For
  `optional<T> < T` (only reachable with an engaged optional on the
  concrete traces: the sentinel is always caught by the first branch of
  each comparison chain) the element comparison applies.
-/

/-- Repository operator Lt on two optional values: nullopt is largest
(abstract_tree.h lines 13-16, cartesian_tree.h lines 11-14). -/
def optLT : Option Int → Option Int → Bool
  | some a, some b => a < b
  | some _, none => true
  | none, _ => false

/-- Repository operator Lt between a value and an optional
(rb_tree.h lines 10-17): true when the optional is empty. -/
def ltVO (v : Int) : Option Int → Bool
  | none => true
  | some w => v < w

/-- Comparison of an optional against a value as used in the second branch
of the descent chains; with an engaged optional it is the element order.
The empty case is unreachable on the evaluated traces (the sentinel is
always caught by the first branch), so its value is immaterial; we use the
std semantics (empty optional compares less than every value). -/
def ltOV : Option Int → Int → Bool
  | none, _ => true
  | some w, v => w < v

namespace AVL

/-- Node of the AVL tree (avl_tree.h lines 14-43): child and parent links,
an 8-bit height and an optional value (none on the end sentinel).  Heights
stay tiny on every trace below, so Nat faithfully models unsigned char. -/
structure Node where
  left : Option Nat
  right : Option Nat
  parent : Option Nat
  height : Nat
  value : Option Int
deriving DecidableEq, Repr

/-- The tree state: the node store (id = allocation index), the begin and
end sentinels, the root pointer and the size counter, as held by the
members of AVLTree (avl_tree.h lines 145-148). -/
structure State where
  nodes : List Node
  beginP : Nat
  endP : Nat
  root : Option Nat
  size : Nat
deriving DecidableEq, Repr

def getN (s : State) (i : Nat) : Node :=
  s.nodes.getD i { left := none, right := none, parent := none, height := 1, value := none }

def setN (s : State) (i : Nat) (n : Node) : State :=
  { s with nodes := s.nodes.set i n }

def setLeft (s : State) (i : Nat) (p : Option Nat) : State :=
  setN s i { getN s i with left := p }

def setRight (s : State) (i : Nat) (p : Option Nat) : State :=
  setN s i { getN s i with right := p }

def setParent (s : State) (i : Nat) (p : Option Nat) : State :=
  setN s i { getN s i with parent := p }

def setHeight (s : State) (i : Nat) (h : Nat) : State :=
  setN s i { getN s i with height := h }

/-- AVLTree constructor (avl_tree.h lines 45-50): a fresh end sentinel,
begin = end, root = end, size 0. -/
def new : State :=
  { nodes := [{ left := none, right := none, parent := none, height := 1, value := none }]
    beginP := 0
    endP := 0
    root := some 0
    size := 0 }

/-- RemoveLast (avl_tree.h lines 275-284): unlink the end sentinel from its
parent, null the root if it is the sentinel, and reset the sentinel parent. -/
def RemoveLast (s : State) : State :=
  let s :=
    match (getN s s.endP).parent with
    | some p => setRight s p none
    | none => s
  let s := if s.root = some s.endP then { s with root := none } else s
  setParent s s.endP none

/-- Walk to the leftmost node of a subtree (the while loops of BLCheck and
Increment). -/
def leftmostFrom (s : State) : Nat → Nat → Nat
  | 0, i => i
  | fuel + 1, i =>
    match (getN s i).left with
    | some l => leftmostFrom s fuel l
    | none => i

/-- Walk to the rightmost node of a subtree (the while loops of BLCheck and
Decrement). -/
def rightmostFrom (s : State) : Nat → Nat → Nat
  | 0, i => i
  | fuel + 1, i =>
    match (getN s i).right with
    | some r => rightmostFrom s fuel r
    | none => i

/-- BLCheck (avl_tree.h lines 287-303): recompute the begin pointer and
re-attach the end sentinel as the right child of the maximum. -/
def BLCheck (s : State) : State :=
  match s.root with
  | none => { s with beginP := s.endP }
  | some r =>
    let b := leftmostFrom s s.nodes.length r
    let m := rightmostFrom s s.nodes.length r
    let s := { s with beginP := b }
    let s := setRight s m (some s.endP)
    setParent s s.endP (some m)

/-- FixHeight (avl_tree.h lines 305-329). -/
def FixHeight (s : State) (i : Option Nat) : State :=
  match i with
  | none => s
  | some i =>
    let hl := match (getN s i).left with | none => 0 | some l => (getN s l).height
    let hr := match (getN s i).right with | none => 0 | some r => (getN s r).height
    setHeight s i (if hl > hr then hl + 1 else hr + 1)

/-- BFactor (avl_tree.h lines 331-346): height of right minus height of left. -/
def BFactor (s : State) (i : Nat) : Int :=
  let hl : Int := match (getN s i).left with | none => 0 | some l => (getN s l).height
  let hr : Int := match (getN s i).right with | none => 0 | some r => (getN s r).height
  hr - hl

/-- LeftRotate (avl_tree.h lines 348-373). -/
def LeftRotate (s0 : State) (f : Nat) : State :=
  match (getN s0 f).right with
  | none => s0
  | some rn =>
    let rl := (getN s0 rn).left
    let s := setRight s0 f rl
    let s := match rl with | some x => setParent s x (some f) | none => s
    let s := setLeft s rn (some f)
    let fp := (getN s f).parent
    let s := setParent s rn fp
    let s :=
      match fp with
      | some p => if (getN s p).right = some f then setRight s p (some rn) else setLeft s p (some rn)
      | none => { s with root := some rn }
    let s := setParent s f (some rn)
    FixHeight (FixHeight s (some f)) (some rn)

/-- RightRotate (avl_tree.h lines 375-400). -/
def RightRotate (s0 : State) (f : Nat) : State :=
  match (getN s0 f).left with
  | none => s0
  | some ln =>
    let lr := (getN s0 ln).right
    let s := setLeft s0 f lr
    let s := match lr with | some x => setParent s x (some f) | none => s
    let s := setRight s ln (some f)
    let fp := (getN s f).parent
    let s := setParent s ln fp
    let s :=
      match fp with
      | some p => if (getN s p).right = some f then setRight s p (some ln) else setLeft s p (some ln)
      | none => { s with root := some ln }
    let s := setParent s f (some ln)
    FixHeight (FixHeight s (some f)) (some ln)

/-- AVLFixBalance (avl_tree.h lines 402-418). -/
def AVLFixBalance (s0 : State) (i : Nat) : State :=
  let s := FixHeight s0 (some i)
  if BFactor s i = 2 then
    let s :=
      match (getN s i).right with
      | some r => if BFactor s r < 0 then RightRotate s r else s
      | none => s
    LeftRotate s i
  else if BFactor s i = -2 then
    let s :=
      match (getN s i).left with
      | some l => if BFactor s l > 0 then LeftRotate s l else s
      | none => s
    RightRotate s i
  else s

/-- The descent loop of InsertImplementation (avl_tree.h lines 429-441):
returns the attach point, or none when the key is already present (the
`return false` branch). -/
def insertDescend (s : State) (nv : Option Int) : Nat → Nat → Option Nat
  | 0, cur => some cur
  | fuel + 1, cur =>
    if optLT nv (getN s cur).value then
      match (getN s cur).left with
      | some l => insertDescend s nv fuel l
      | none => some cur
    else if optLT (getN s cur).value nv then
      match (getN s cur).right with
      | some r => insertDescend s nv fuel r
      | none => some cur
    else none

/-- The rebalancing walk shared by insert and erase (avl_tree.h lines
450-453 and 504-507): while the cursor is non-null, fix the balance there
and move to its parent. -/
def fixUp (s : State) : Nat → Option Nat → State
  | 0, _ => s
  | _, none => s
  | fuel + 1, some cur =>
    let s := AVLFixBalance s cur
    fixUp s fuel (getN s cur).parent

/-- InsertImplementation (avl_tree.h lines 420-456).  Note that the
duplicate branch returns false immediately: RemoveLast has already
detached the end sentinel and BLCheck is never reached. -/
def InsertImplementation (s0 : State) (newId : Nat) : State × Bool :=
  let s := RemoveLast s0
  match s.root with
  | none => (BLCheck { s with root := some newId }, true)
  | some r =>
    match insertDescend s (getN s newId).value (s.nodes.length + 1) r with
    | none => (s, false)
    | some cur =>
      let s :=
        if optLT (getN s newId).value (getN s cur).value then setLeft s cur (some newId)
        else setRight s cur (some newId)
      let s := setParent s newId (some cur)
      let s := fixUp s (s.nodes.length + 1) (some cur)
      (BLCheck s, true)

/-- Insert (avl_tree.h lines 122-127): allocate the node, run the
implementation, bump the size on success. -/
def Insert (s : State) (v : Int) : State :=
  let newId := s.nodes.length
  let s := { s with nodes := s.nodes ++ [{ left := none, right := none, parent := none, height := 1, value := some v }] }
  match InsertImplementation s newId with
  | (s, true) => { s with size := s.size + 1 }
  | (s, false) => s

/-- FindRecursive (avl_tree.h lines 241-252): returns the node id, with the
end sentinel standing for the End() iterator. -/
def FindRecursive (s : State) : Nat → Option Nat → Int → Nat
  | 0, _, _ => s.endP
  | _, none, _ => s.endP
  | fuel + 1, some f, v =>
    if ltVO v (getN s f).value then FindRecursive s fuel (getN s f).left v
    else if ltOV (getN s f).value v then FindRecursive s fuel (getN s f).right v
    else f

def Find (s : State) (v : Int) : Nat :=
  FindRecursive s (s.nodes.length + 1) s.root v

/-- The upward walk of Increment (avl_tree.h lines 176-180): climb while
the current node is its parent's right child. -/
def climbWhileRight (s : State) : Nat → Nat → Nat
  | 0, it => it
  | fuel + 1, it =>
    match (getN s it).parent with
    | some p => if (getN s p).right = some it then climbWhileRight s fuel p else it
    | none => it

/-- AVLTreeItImpl::Increment (avl_tree.h lines 166-185).  none = the
out-of-range exception.  When the climb stops at a node whose parent is
expired, the iterator silently stays there (lines 181-183). -/
def Increment (s : State) (it : Nat) : Option Nat :=
  if (getN s it).value = none then none
  else
    match (getN s it).right with
    | some r => some (leftmostFrom s s.nodes.length r)
    | none =>
      let it2 := climbWhileRight s s.nodes.length it
      match (getN s it2).parent with
      | some p => some p
      | none => some it2

/-- AVLTreeItImpl::Decrement (avl_tree.h lines 186-200): if there is a left
subtree go to its maximum, otherwise move to the parent unconditionally
(no climbing loop), throwing only when the parent is expired. -/
def Decrement (s : State) (it : Nat) : Option Nat :=
  match (getN s it).left with
  | some l => some (rightmostFrom s s.nodes.length l)
  | none =>
    match (getN s it).parent with
    | some p => some p
    | none => none

/-- LowerBoundRecursive (avl_tree.h lines 254-272).  none = the exception
thrown by the embedded Increment call. -/
def LowerBoundRecursive (s : State) : Nat → Nat → Int → Option Nat
  | 0, f, _ => some f
  | fuel + 1, f, v =>
    if ltVO v (getN s f).value then
      match (getN s f).left with
      | some l => LowerBoundRecursive s fuel l v
      | none => some f
    else if ltOV (getN s f).value v then
      match (getN s f).right with
      | some r => LowerBoundRecursive s fuel r v
      | none => Increment s f
    else some f

/-- LowerBound (avl_tree.h lines 118-120).  The source calls
LowerBoundRecursive on root_ with no null check; root_ is non-null on
every trace below. -/
def LowerBound (s : State) (v : Int) : Option Nat :=
  match s.root with
  | some r => LowerBoundRecursive s (s.nodes.length + 1) r v
  | none => none

/-- ReplaceNodes (avl_tree.h lines 512-559), statement by statement. -/
def ReplaceNodes (s0 : State) (n1 n2 : Nat) : State :=
  let n1p := (getN s0 n1).parent
  let s :=
    match n1p with
    | some p => if (getN s0 p).left = some n1 then setLeft s0 p (some n2) else setRight s0 p (some n2)
    | none => s0
  let n2p := (getN s n2).parent
  let s :=
    match n2p with
    | some p => if (getN s p).left = some n2 then setLeft s p (some n1) else setRight s p (some n1)
    | none => s
  let s :=
    if n2p = some n1 then
      let s := setParent s n2 (getN s n1).parent
      setParent s n1 (some n2)
    else
      let t := (getN s n2).parent
      let s := setParent s n2 (getN s n1).parent
      setParent s n1 t
  let s := setLeft s n2 (getN s n1).left
  let s := match (getN s n1).left with | some x => setParent s x (some n2) | none => s
  let s := setLeft s n1 none
  let h1 := (getN s n1).height
  let h2 := (getN s n2).height
  let s := setHeight s n2 h1
  let s := setHeight s n1 h2
  let ch := (getN s n2).right
  let s := setRight s n2 (getN s n1).right
  let s := match (getN s n1).right with | some x => setParent s x (some n2) | none => s
  let s := setRight s n1 ch
  match ch with
  | some x => setParent s x (some n1)
  | none => s

/-- EraseImplementation (avl_tree.h lines 458-510).  The rebalancing walk
starts from the `parent` variable, which the two-children branch reassigns
only when the replaced node still has a right child. -/
def EraseImplementation (s0 : State) (d : Nat) : State :=
  let s := RemoveLast s0
  let p0 := (getN s d).parent
  let dl := (getN s d).left
  let dr := (getN s d).right
  let step :=
    if dr = none ∧ dl = none then
      let s :=
        match p0 with
        | some p => if (getN s p).left = some d then setLeft s p none else setRight s p none
        | none => { s with root := none }
      (s, p0)
    else if (dr ≠ none ∧ dl = none) ∨ (dr = none ∧ dl ≠ none) then
      let c := match dr with | some c => c | none => dl.getD 0
      match p0 with
      | none => ({ s with root := some c }, p0)
      | some p =>
        let s := if (getN s p).left = some d then setLeft s p (some c) else setRight s p (some c)
        (setParent s c p0, p0)
    else
      let sw := leftmostFrom s s.nodes.length (dr.getD 0)
      let s := ReplaceNodes s d sw
      match (getN s d).right with
      | some dr2 =>
        let p := (getN s d).parent
        let s := match p with | some pp => setLeft s pp (some dr2) | none => s
        let s := setParent s dr2 p
        (s, p)
      | none => (s, p0)
  let s := fixUp step.1 (step.1.nodes.length + 1) step.2
  BLCheck s

/-- Erase (avl_tree.h lines 128-136): find the node; if the result equals
End() do nothing, otherwise run the implementation and decrement size. -/
def Erase (s : State) (v : Int) : State :=
  let f := Find s v
  if f = s.endP then s
  else
    let s2 := EraseImplementation s f
    { s2 with size := s2.size - 1 }

/-- Iterating from a cursor by repeated Increment until the end sentinel,
collecting the dereferenced values: how the test suite consumes a tree
(full_test_set.h lines 72-87). -/
def traverseFrom (s : State) : Nat → Nat → List Int
  | 0, _ => []
  | fuel + 1, it =>
    if it = s.endP then []
    else
      match (getN s it).value with
      | none => []
      | some v =>
        match Increment s it with
        | some it2 => v :: traverseFrom s fuel it2
        | none => [v]

end AVL

namespace RB

/-- Node of the red-black tree (rb_tree.h lines 26-53): child and parent
links, a colour flag (true = red, the value given at creation) and an
optional value (none on the end sentinel). -/
structure Node where
  left : Option Nat
  right : Option Nat
  parent : Option Nat
  isRed : Bool
  value : Option Int
deriving DecidableEq, Repr

/-- The tree state held by the members of RBTree (rb_tree.h lines 177-180). -/
structure State where
  nodes : List Node
  beginP : Nat
  endP : Nat
  root : Option Nat
  size : Nat
deriving DecidableEq, Repr

def getN (s : State) (i : Nat) : Node :=
  s.nodes.getD i { left := none, right := none, parent := none, isRed := true, value := none }

def setN (s : State) (i : Nat) (n : Node) : State :=
  { s with nodes := s.nodes.set i n }

def setLeft (s : State) (i : Nat) (p : Option Nat) : State :=
  setN s i { getN s i with left := p }

def setRight (s : State) (i : Nat) (p : Option Nat) : State :=
  setN s i { getN s i with right := p }

def setParent (s : State) (i : Nat) (p : Option Nat) : State :=
  setN s i { getN s i with parent := p }

def setRed (s : State) (i : Nat) (b : Bool) : State :=
  setN s i { getN s i with isRed := b }

/-- RBTree constructor (rb_tree.h lines 55-60): a fresh end sentinel
(created red by the default Node constructor), begin = end, root = end,
size 0. -/
def new : State :=
  { nodes := [{ left := none, right := none, parent := none, isRed := true, value := none }]
    beginP := 0
    endP := 0
    root := some 0
    size := 0 }

/-- RemoveLast (rb_tree.h lines 316-325): unlike the AVL version, the
sentinel parent reset is commented out in the source. -/
def RemoveLast (s : State) : State :=
  let s :=
    match (getN s s.endP).parent with
    | some p => setRight s p none
    | none => s
  if s.root = some s.endP then { s with root := none } else s

def leftmostFrom (s : State) : Nat → Nat → Nat
  | 0, i => i
  | fuel + 1, i =>
    match (getN s i).left with
    | some l => leftmostFrom s fuel l
    | none => i

def rightmostFrom (s : State) : Nat → Nat → Nat
  | 0, i => i
  | fuel + 1, i =>
    match (getN s i).right with
    | some r => rightmostFrom s fuel r
    | none => i

/-- BLCheck (rb_tree.h lines 328-344). -/
def BLCheck (s : State) : State :=
  match s.root with
  | none => { s with beginP := s.endP }
  | some r =>
    let b := leftmostFrom s s.nodes.length r
    let m := rightmostFrom s s.nodes.length r
    let s := { s with beginP := b }
    let s := setRight s m (some s.endP)
    setParent s s.endP (some m)

/-- RBBalancing (rb_tree.h lines 384-507), branch by branch: parent black
is done; red uncle recolours and recurses on the grandparent (which may
leave a red root); the inner cases rotate the node above its parent and
recurse on the demoted parent; the outer cases rotate the grandparent and
recolour. -/
def RBBalancing (s : State) : Nat → Nat → State
  | 0, _ => s
  | fuel + 1, f =>
    match (getN s f).parent with
    | none => s
    | some parent =>
      if (getN s parent).isRed = false then s
      else
        match (getN s parent).parent with
        | none => setRed s parent false
        | some gp =>
          if (getN s gp).right = some parent then
            let uncle := (getN s gp).left
            if (match uncle with | some u => (getN s u).isRed | none => false) then
              let s := setRed s parent false
              let s := match uncle with | some u => setRed s u false | none => s
              let s := setRed s gp true
              RBBalancing s fuel gp
            else if (getN s parent).left = some f then
              let s :=
                if (getN s gp).right = some parent then setRight s gp (some f)
                else setLeft s gp (some f)
              let s := setParent s parent (some f)
              let s := setLeft s parent (getN s f).right
              let s := match (getN s f).right with | some x => setParent s x (some parent) | none => s
              let s := setRight s f (some parent)
              let s := setParent s f (some gp)
              RBBalancing s fuel parent
            else
              let s :=
                match (getN s gp).parent with
                | some ggp =>
                  let s :=
                    if (getN s ggp).right = some gp then setRight s ggp (some parent)
                    else setLeft s ggp (some parent)
                  setParent s parent (some ggp)
                | none =>
                  let s := { s with root := some parent }
                  setParent s parent none
              let s := setRight s gp (getN s parent).left
              let s := match (getN s parent).left with | some x => setParent s x (some gp) | none => s
              let s := setLeft s parent (some gp)
              let s := setParent s gp (some parent)
              let s := setRed s parent false
              setRed s gp true
          else
            let uncle := (getN s gp).right
            if (match uncle with | some u => (getN s u).isRed | none => false) then
              let s := setRed s parent false
              let s := match uncle with | some u => setRed s u false | none => s
              let s := setRed s gp true
              RBBalancing s fuel gp
            else if (getN s parent).right = some f then
              let s :=
                if (getN s gp).right = some parent then setRight s gp (some f)
                else setLeft s gp (some f)
              let s := setParent s parent (some f)
              let s := setRight s parent (getN s f).left
              let s := match (getN s f).left with | some x => setParent s x (some parent) | none => s
              let s := setLeft s f (some parent)
              let s := setParent s f (some gp)
              RBBalancing s fuel parent
            else
              let s :=
                match (getN s gp).parent with
                | some ggp =>
                  let s :=
                    if (getN s ggp).left = some gp then setLeft s ggp (some parent)
                    else setRight s ggp (some parent)
                  setParent s parent (some ggp)
                | none =>
                  let s := { s with root := some parent }
                  setParent s parent none
              let s := setLeft s gp (getN s parent).right
              let s := match (getN s parent).right with | some x => setParent s x (some gp) | none => s
              let s := setRight s parent (some gp)
              let s := setParent s gp (some parent)
              let s := setRed s parent false
              setRed s gp true

/-- The descent loop of InsertImplementation (rb_tree.h lines 355-368). -/
def insertDescend (s : State) (nv : Option Int) : Nat → Nat → Option Nat
  | 0, cur => some cur
  | fuel + 1, cur =>
    if optLT nv (getN s cur).value then
      match (getN s cur).left with
      | some l => insertDescend s nv fuel l
      | none => some cur
    else if optLT (getN s cur).value nv then
      match (getN s cur).right with
      | some r => insertDescend s nv fuel r
      | none => some cur
    else none

/-- InsertImplementation (rb_tree.h lines 346-382): the first node becomes
the root with no recolouring, so it keeps the red colour it was created
with. -/
def InsertImplementation (s0 : State) (newId : Nat) : State × Bool :=
  let s := RemoveLast s0
  match s.root with
  | none => (BLCheck { s with root := some newId }, true)
  | some r =>
    match insertDescend s (getN s newId).value (s.nodes.length + 1) r with
    | none => (s, false)
    | some cur =>
      let s :=
        if optLT (getN s newId).value (getN s cur).value then setLeft s cur (some newId)
        else setRight s cur (some newId)
      let s := setParent s newId (some cur)
      let s := RBBalancing s (s.nodes.length + 1) newId
      (BLCheck s, true)

/-- Insert (rb_tree.h lines 132-137). -/
def Insert (s : State) (v : Int) : State :=
  let newId := s.nodes.length
  let s := { s with nodes := s.nodes ++ [{ left := none, right := none, parent := none, isRed := true, value := some v }] }
  match InsertImplementation s newId with
  | (s, true) => { s with size := s.size + 1 }
  | (s, false) => s

def Run (ops : List Int) : State :=
  ops.foldl Insert new

/-- Specification predicate (claim C7, spec section 3): the root, when the
tree is non-empty, is black.  The end sentinel does not count as a tree
node. -/
def rootBlack (s : State) : Bool :=
  match s.root with
  | none => true
  | some r => r = s.endP ∨ (getN s r).isRed = false

/-- Specification predicate (claim C7): no red node has a red child,
checked over the value-bearing nodes reachable from the root. -/
def noRedRed (s : State) : Nat → Option Nat → Bool
  | 0, _ => true
  | _, none => true
  | fuel + 1, some i =>
    if i = s.endP then true
    else
      let redChild : Option Nat → Bool := fun c =>
        match c with
        | some c => c ≠ s.endP && (getN s c).isRed
        | none => false
      (!((getN s i).isRed && (redChild (getN s i).left || redChild (getN s i).right)))
        && noRedRed s fuel (getN s i).left && noRedRed s fuel (getN s i).right

/-- Specification predicate (claim C7): the multiset of black counts along
every root-to-absent-child path, as a list of leaf black depths; the
invariant holds when all entries are equal. -/
def blackDepths (s : State) : Nat → Option Nat → Nat → List Nat
  | 0, _, acc => [acc]
  | _, none, acc => [acc]
  | fuel + 1, some i, acc =>
    if i = s.endP then [acc]
    else
      let acc2 := if (getN s i).isRed then acc else acc + 1
      blackDepths s fuel (getN s i).left acc2 ++ blackDepths s fuel (getN s i).right acc2

def blackBalanced (s : State) : Bool :=
  match blackDepths s (s.nodes.length + 1) s.root 0 with
  | [] => true
  | d :: ds => ds.all (fun x => x = d)

end RB

namespace Cartesian

/-- Treap tree (cartesian_tree.h lines 41-67) as an inductive: each node
carries an optional key (the constructor-made sentinel holds none, which
the repository optional order treats as larger than every key) and a
32-bit priority.  Parent pointers are recomputable from the shape and are
dropped; every source function below manipulates shapes exactly as the
pointer code does. -/
inductive CTree where
  | nil : CTree
  | node : CTree → Option Int → Nat → CTree → CTree
deriving DecidableEq, Repr

namespace CTree

def size : CTree → Nat
  | nil => 0
  | node l _ _ r => size l + size r + 1

def rootVal : CTree → Option (Option Int)
  | nil => none
  | node _ v _ _ => some v

def rootPrio : CTree → Option Nat
  | nil => none
  | node _ _ p _ => some p

/-- Root priority with 0 for the empty tree, used to phrase root selection. -/
def prioOf : CTree → Nat
  | nil => 0
  | node _ _ p _ => p

def inorder : CTree → List (Option Int)
  | nil => []
  | node l v _ r => inorder l ++ v :: inorder r

/-- True when the root priority of the tree (if any) is at least p: the
descending direction of the heap order the source maintains. -/
def prioRootGe : CTree → Nat → Bool
  | nil, _ => true
  | node _ _ q _, p => p ≤ q

/-- Heap order as the source maintains it (cartesian_tree.h Merge and
InsertRec): every parent priority is less than or equal to the priorities
of its children. -/
def isHeap : CTree → Bool
  | nil => true
  | node l _ p r => prioRootGe l p && prioRootGe r p && isHeap l && isHeap r

/-- All keys of the first tree are less than all keys of the second, with
the repository optional order: the precondition of Merge. -/
def keysLess (l r : CTree) : Bool :=
  (inorder l).all fun a => (inorder r).all fun b => optLT a b

end CTree

open CTree

/-- Merge (cartesian_tree.h lines 276-296) with an explicit fuel (the
recursion consumes at least one node of the combined trees per step, so
any fuel of at least size lhs + size rhs computes the fixpoint): when the
left root priority is less than the right root priority the left root is
kept and its right child becomes the merge of its right subtree with the
right tree, otherwise the right root is kept symmetrically. -/
def mergeF : Nat → CTree → CTree → CTree
  | 0, _, r => r
  | _ + 1, nil, r => r
  | _ + 1, l, nil => l
  | fuel + 1, node ll lv lp lr, node rl rv rp rr =>
    if lp < rp then node ll lv lp (mergeF fuel lr (node rl rv rp rr))
    else node (mergeF fuel (node ll lv lp lr) rl) rv rp rr

def Merge (l r : CTree) : CTree :=
  mergeF (l.size + r.size) l r

/-- Split (cartesian_tree.h lines 298-330): partition a subtree into the
part with keys not greater than the pivot and the part with keys greater,
following the source branch structure (the source never calls Split on a
null root). -/
def Split (value : Option Int) : CTree → CTree × CTree
  | nil => (nil, nil)
  | node l v p r =>
    if optLT value v then
      match l with
      | nil => (nil, node l v p r)
      | node la lb lc ld =>
        let res := Split value (node la lb lc ld)
        (res.1, node res.2 v p r)
    else
      match r with
      | nil => (node l v p r, nil)
      | node ra rb rc rd =>
        let res := Split value (node ra rb rc rd)
        (node l v p res.1, res.2)

/-- The rightmost key of a tree (the max_v walk of InsertRec, cartesian
tree lines 374-377). -/
def maxVal : CTree → Option Int
  | nil => none
  | node _ v _ nil => v
  | node _ _ _ (node a b c d) => maxVal (node a b c d)

/-- InsertRec (cartesian_tree.h lines 366-411).  The new node has key nv
and priority np.  Returns the rewritten subtree and whether a node was
inserted.  The `throw` branch of the source (split postcondition violated)
is unreachable and collapses with the duplicate branch. -/
def InsertRec (nv : Option Int) (np : Nat) : CTree → CTree × Bool
  | nil => (node nil nv np nil, true)
  | node l v p r =>
    if np ≤ p then
      let res := Split nv (node l v p r)
      match res.1 with
      | nil => (node nil nv np res.2, true)
      | node la lb lc ld =>
        if optLT (maxVal (node la lb lc ld)) nv then
          (Merge (Merge (node la lb lc ld) (node nil nv np nil)) res.2, true)
        else
          (Merge (node la lb lc ld) res.2, false)
    else if optLT v nv || optLT nv v then
      if optLT nv v then
        let res := InsertRec nv np l
        (node res.1 v p r, res.2)
      else
        let res := InsertRec nv np r
        (node l v p res.1, res.2)
    else (node l v p r, false)

/-- The process-wide random generator (cartesian_tree.h lines 21-38): a
singleton stream shared by every CartesianTree in the process, seeded from
std::random_device - no constructor takes a seed.  We model the stream of
values it will produce as a list; Next pops the head. -/
def RandomNext (stream : List Nat) : Nat × List Nat :=
  match stream with
  | [] => (0, [])
  | p :: ps => (p, ps)

/-- Constructing a CartesianTree and running a sequence of Insert calls
against the shared random stream: the constructor (lines 69-74) allocates
the sentinel node, whose Node() constructor draws a priority from the
shared generator, and every Insert (lines 163-169) first allocates a node
(drawing one more priority) and then calls InsertRec on the root. -/
def buildTreap (ops : List Int) (stream : List Nat) : CTree × List Nat :=
  let draw0 := RandomNext stream
  let step : CTree × List Nat → Int → CTree × List Nat := fun acc v =>
    let draw := RandomNext acc.2
    ((InsertRec (some v) draw.1 acc.1).1, draw.2)
  ops.foldl step (node nil none draw0.1 nil, draw0.2)

end Cartesian

namespace Cursor

/-- The concrete iterator implementations of the five variants: which
derived class of ITreeItImpl a cursor belongs to. -/
inductive Variant where
  | avl
  | rb
  | cartesian
  | splay
  | skip
deriving DecidableEq, Repr

/-- A cursor implementation object.  Every concrete ItImpl class stores
exactly one data member, the shared_ptr to its node (it_); we record the
node address.  Nodes of distinct set instances (and of distinct variants)
are distinct allocations, so distinct addresses. -/
structure ItImpl where
  variant : Variant
  it : Nat
deriving DecidableEq, Repr

/-- std::dynamic_pointer_cast to the iterator class of the given variant:
null (none) when the dynamic type does not match. -/
def dynCast (target : Variant) (p : ItImpl) : Option ItImpl :=
  if p.variant = target then some p else none

/-- AVLTreeItImpl::IsEqual (avl_tree.h lines 213-219): dynamic cast, false
on mismatch, otherwise shared_ptr equality of the stored nodes. -/
def avlIsEqual (self other : ItImpl) : Bool :=
  match dynCast Variant.avl other with
  | none => false
  | some casted => self.it = casted.it

/-- SplayTreeItImpl::IsEqual (splay_tree.h lines 368-374): same shape as
the AVL version. -/
def splayIsEqual (self other : ItImpl) : Bool :=
  match dynCast Variant.splay other with
  | none => false
  | some casted => self.it = casted.it

/-- CartesianTreeItImpl::IsEqual (cartesian_tree.h lines 252-258): the
source uses std::static_pointer_cast, which performs no runtime type
check; since every iterator class stores the single member it_, the read
through the cast yields the stored node address unchanged, and the
following null check never fires on a non-null argument.  The comparison
is therefore plain address equality. -/
def cartesianIsEqual (self other : ItImpl) : Bool :=
  self.it = other.it

end Cursor

/- Concrete states used by the claims below. -/

/-- AVLTree after insert 1; insert 2; insert 3; erase 2. -/
def avlC1 : AVL.State := AVL.Erase (AVL.Insert (AVL.Insert (AVL.Insert AVL.new 1) 2) 3) 2

/-- AVLTree after insert 1; insert 2. -/
def avlA : AVL.State := AVL.Insert (AVL.Insert AVL.new 1) 2

/-- AVLTree after insert 1; insert 2; insert 1 (duplicate). -/
def avlB : AVL.State := AVL.Insert avlA 1

/-- AVLTree after insert 2; insert 1. -/
def avlDecA : AVL.State := AVL.Insert (AVL.Insert AVL.new 2) 1

/-- AVLTree after inserting 1, 2, 3, 4, 5 in order. -/
def avlDecB : AVL.State :=
  AVL.Insert (AVL.Insert (AVL.Insert (AVL.Insert (AVL.Insert AVL.new 1) 2) 3) 4) 5

/-- RBTree after inserting 10, 5, 15, 3 in order. -/
def rbC7 : RB.State := RB.Run [10, 5, 15, 3]

/-- A one-node treap with key 1 and priority 5. -/
def c8L : Cartesian.CTree := Cartesian.CTree.node Cartesian.CTree.nil (some 1) 5 Cartesian.CTree.nil

/-- A one-node treap with key 2 and priority 3. -/
def c8R : Cartesian.CTree := Cartesian.CTree.node Cartesian.CTree.nil (some 2) 3 Cartesian.CTree.nil

/-- A concrete state of the process-wide random stream. -/
def c9Stream : List Nat := [1, 5, 2, 10, 3, 4]

/-- First run: construct a CartesianTree and insert 10 then 20. -/
def c9Run1 : Cartesian.CTree × List Nat := Cartesian.buildTreap [10, 20] c9Stream

/-- Second run in the same process: the same construction and the same
insert sequence, drawing from where the shared stream now stands. -/
def c9Run2 : Cartesian.CTree × List Nat := Cartesian.buildTreap [10, 20] c9Run1.2

/-- Key order of a treap stated on its in-order key sequence. -/
def Cartesian.CTree.sortedKeys (t : Cartesian.CTree) : Prop :=
  t.inorder.Pairwise (fun a b => optLT a b = true)

/- Helper lemmas about the treap Merge. -/

namespace Cartesian

theorem CTree.eq_nil_of_size_eq_zero {t : CTree} (h : t.size = 0) : t = CTree.nil := by
  cases t with
  | nil => rfl
  | node l v p r => simp [CTree.size] at h

theorem mergeF_inorder :
    ∀ (fuel : Nat) (l r : CTree), l.size + r.size ≤ fuel →
      (mergeF fuel l r).inorder = l.inorder ++ r.inorder := by
  intro fuel
  induction fuel with
  | zero =>
    intro l r h
    have hl : l = CTree.nil := CTree.eq_nil_of_size_eq_zero (by omega)
    subst hl
    simp [mergeF, CTree.inorder]
  | succ n ih =>
    intro l r h
    cases l with
    | nil => simp [mergeF, CTree.inorder]
    | node ll lv lp lr =>
      cases r with
      | nil => simp [mergeF, CTree.inorder]
      | node rl rv rp rr =>
        simp only [mergeF]
        by_cases hp : lp < rp
        · rw [if_pos hp]
          have hsz : lr.size + (CTree.node rl rv rp rr).size ≤ n := by
            simp [CTree.size] at h ⊢
            omega
          simp [CTree.inorder, ih lr (CTree.node rl rv rp rr) hsz]
        · rw [if_neg hp]
          have hsz : (CTree.node ll lv lp lr).size + rl.size ≤ n := by
            simp [CTree.size] at h ⊢
            omega
          simp [CTree.inorder, ih (CTree.node ll lv lp lr) rl hsz]

theorem mergeF_prioRootGe (fuel : Nat) (l r : CTree) (p : Nat)
    (hl : CTree.prioRootGe l p = true) (hr : CTree.prioRootGe r p = true) :
    CTree.prioRootGe (mergeF fuel l r) p = true := by
  cases fuel with
  | zero => exact hr
  | succ n =>
    cases l with
    | nil => simpa [mergeF] using hr
    | node ll lv lp lr =>
      cases r with
      | nil => simpa [mergeF] using hl
      | node rl rv rp rr =>
        simp only [mergeF]
        by_cases hp : lp < rp <;>
          simp [hp, CTree.prioRootGe] at hl hr ⊢ <;> omega

theorem mergeF_isHeap :
    ∀ (fuel : Nat) (l r : CTree), l.size + r.size ≤ fuel →
      CTree.isHeap l = true → CTree.isHeap r = true →
      CTree.isHeap (mergeF fuel l r) = true := by
  intro fuel
  induction fuel with
  | zero =>
    intro l r h _ hr
    have hl : l = CTree.nil := CTree.eq_nil_of_size_eq_zero (by omega)
    subst hl
    simpa [mergeF] using hr
  | succ n ih =>
    intro l r h hhl hhr
    cases l with
    | nil => simpa [mergeF] using hhr
    | node ll lv lp lr =>
      cases r with
      | nil => simpa [mergeF] using hhl
      | node rl rv rp rr =>
        simp only [mergeF]
        simp only [CTree.isHeap, Bool.and_eq_true] at hhl hhr
        by_cases hp : lp < rp
        · rw [if_pos hp]
          have hsz : lr.size + (CTree.node rl rv rp rr).size ≤ n := by
            simp [CTree.size] at h ⊢
            omega
          have hge : CTree.prioRootGe (CTree.node rl rv rp rr) lp = true := by
            simp [CTree.prioRootGe]
            omega
          have hmge := mergeF_prioRootGe n lr (CTree.node rl rv rp rr) lp hhl.1.1.2 hge
          have hmh := ih lr (CTree.node rl rv rp rr) hsz hhl.2 (by
            simp [CTree.isHeap, Bool.and_eq_true]
            exact hhr)
          simp [CTree.isHeap, Bool.and_eq_true, hhl.1.1.1, hmge, hhl.1.2, hmh]
        · rw [if_neg hp]
          have hsz : (CTree.node ll lv lp lr).size + rl.size ≤ n := by
            simp [CTree.size] at h ⊢
            omega
          have hge : CTree.prioRootGe (CTree.node ll lv lp lr) rp = true := by
            simp [CTree.prioRootGe]
            omega
          have hmge := mergeF_prioRootGe n (CTree.node ll lv lp lr) rl rp hge hhr.1.1.1
          have hmh := ih (CTree.node ll lv lp lr) rl hsz (by
            simp [CTree.isHeap, Bool.and_eq_true]
            exact hhl) hhr.1.2
          simp [CTree.isHeap, Bool.and_eq_true, hmge, hhr.1.1.2, hmh, hhr.2]

theorem Merge_inorder (l r : CTree) :
    (Merge l r).inorder = l.inorder ++ r.inorder :=
  mergeF_inorder (l.size + r.size) l r (Nat.le_refl _)

theorem Merge_root (l r : CTree) (hl : l ≠ CTree.nil) (hr : r ≠ CTree.nil) :
    CTree.rootPrio (Merge l r) =
      (if CTree.prioOf l < CTree.prioOf r then CTree.rootPrio l else CTree.rootPrio r) := by
  cases l with
  | nil => exact absurd rfl hl
  | node ll lv lp lr =>
    cases r with
    | nil => exact absurd rfl hr
    | node rl rv rp rr =>
      unfold Merge
      have hsz : (CTree.node ll lv lp lr).size + (CTree.node rl rv rp rr).size =
          (ll.size + lr.size + rl.size + rr.size + 1) + 1 := by
        simp [CTree.size]
        omega
      rw [hsz]
      simp only [mergeF]
      by_cases hp : lp < rp <;> simp [hp, CTree.rootPrio, CTree.prioOf]

end Cartesian

/- Claim theorems. -/

/-- C1: the claim states that for every variant, an element inserted and
not subsequently erased is returned by Find with a non-end cursor.  On the
AVL variant this fails: after insert 1; insert 2; insert 3; erase 2,
EraseImplementation leaves root_ pointing at the removed node (the
two-children branch never updates root_ and, when the in-order successor
is the right child, splices incorrectly), so Find returns the end cursor
for 1 and for 3 although both were inserted and never erased. -/
theorem avl_find_loses_kept_elements_after_erase :
    AVL.Find avlC1 1 = avlC1.endP ∧ AVL.Find avlC1 3 = avlC1.endP := by decide

/-- C2: the claim states that erase of a present element removes it from
find and traversal and decrements size.  On the AVL variant, after
insert 1; insert 2; insert 3; erase 2 the size is decremented to 2 but
Find still returns a dereferenceable cursor whose value is the erased
element 2. -/
theorem avl_erase_leaves_erased_element_behind :
    AVL.Find avlC1 2 ≠ avlC1.endP ∧
    (AVL.getN avlC1 (AVL.Find avlC1 2)).value = some 2 ∧
    avlC1.size = 2 := by decide

/-- C3: the claim states that inserting an element already present is a
silent no-op with no observable structural change.  On the AVL variant a
duplicate insert runs RemoveLast (detaching the end sentinel) and returns
before BLCheck re-attaches it: after insert 1; insert 2 the increment of
the cursor at the maximum 2 reaches the end sentinel, but after the
additional duplicate insert 1 the same increment silently lands on the
node holding 1, so insert 1; insert 2; insert 1 is observably different
from insert 1; insert 2. -/
theorem avl_duplicate_insert_changes_observable_state :
    AVL.Increment avlA (AVL.Find avlA 2) = some avlA.endP ∧
    (AVL.Increment avlB (AVL.Find avlB 2)).map (fun i => (AVL.getN avlB i).value) =
      some (some 1) ∧
    avlA.size = avlB.size := by decide

/-- C4: the claim states that after every public operation the begin-to-end
traversal is strictly ascending and enumerates size() elements.  On the
AVL variant, after insert 1; insert 2; insert 3; erase 2 the traversal
enumerates the single value 2 while size() is 2. -/
theorem avl_traversal_size_mismatch_after_erase :
    AVL.traverseFrom avlC1 (avlC1.nodes.length + 2) avlC1.beginP = [2] ∧
    avlC1.size = 2 := by decide

/-- C5: the claim states that lower_bound(e) returns the smallest element
not less than e, or the end cursor.  On the AVL variant, after insert 1;
insert 2; insert 1 (a duplicate insert that detaches the end sentinel),
lower_bound(5) returns a non-end cursor dereferencing to 1, although no
element of the set is >= 5; before the duplicate insert the same query
correctly returned the end cursor. -/
theorem avl_lower_bound_wrong_after_duplicate_insert :
    (AVL.LowerBound avlB 5).map (fun i => (AVL.getN avlB i).value) = some (some 1) ∧
    AVL.LowerBound avlB 5 ≠ some avlB.endP ∧
    AVL.LowerBound avlA 5 = some avlA.endP := by decide

/-- C6: the claim states that decrementing the begin cursor signals an
OutOfRange error and that decrementing any other dereferenceable cursor
yields the in-order predecessor.  The AVL Decrement moves to the parent
whenever there is no left subtree, with no climbing loop: on the
two-element set after insert 2; insert 1, decrementing begin yields the
cursor at 2 without any error; on the five-element set 1..5 (a well
formed AVL tree, as its traversal shows), decrementing the cursor at 3
yields 4 instead of the predecessor 2. -/
theorem avl_decrement_no_error_and_wrong_predecessor :
    AVL.Decrement avlDecA avlDecA.beginP ≠ none ∧
    (AVL.Decrement avlDecA avlDecA.beginP).map (fun i => (AVL.getN avlDecA i).value) =
      some (some 2) ∧
    (AVL.Decrement avlDecB (AVL.Find avlDecB 3)).map (fun i => (AVL.getN avlDecB i).value) =
      some (some 4) ∧
    AVL.traverseFrom avlDecB (avlDecB.nodes.length + 2) avlDecB.beginP = [1, 2, 3, 4, 5] := by
  decide

/-- C7: the claim states that after every insert and erase the red-black
tree root is black.  The code violates it: the first node inserted into an
empty tree is created red and never recoloured, and the red-uncle branch
of RBBalancing recolours the grandparent red and stops when the recursion
reaches the root, so after inserting 10, 5, 15, 3 the root is red (while
the no-red-red and the equal-black-count components hold in that state). -/
theorem rb_root_red_after_inserts :
    RB.rootBlack rbC7 = false ∧
    RB.noRedRed rbC7 (rbC7.nodes.length + 1) rbC7.root = true ∧
    RB.blackBalanced rbC7 = true ∧
    RB.rootBlack (RB.Insert RB.new 1) = false := by decide

/-- C8 counterexample: the claim states that merge(L, R) makes whichever of
L and R has the larger priority the root.  With L a single node of key 1
and priority 5 and R a single node of key 2 and priority 3 (keys of L all
less than keys of R), the source Merge makes the priority-3 node the root,
not the priority-5 one. -/
theorem treap_merge_larger_priority_claim_false :
    Cartesian.CTree.keysLess c8L c8R = true ∧
    Cartesian.CTree.prioOf c8L = 5 ∧
    Cartesian.CTree.prioOf c8R = 3 ∧
    Cartesian.CTree.rootPrio (Cartesian.Merge c8L c8R) = some 3 ∧
    ¬ Cartesian.CTree.rootPrio (Cartesian.Merge c8L c8R) = some 5 := by decide

/-- C8 amended: under the merge precondition (keys of L all less than keys
of R) and with both arguments heap-ordered and key-sorted treaps, the
result's root is whichever of L and R has the SMALLER priority (ties
towards R) - the source maintains parent priority less than or equal to
child priority - recursing on the appropriate child; the merge
concatenates the in-order key sequences and preserves the heap order and
the key order. -/
theorem treap_merge_smaller_priority_root (l r : Cartesian.CTree)
    (hl : l ≠ Cartesian.CTree.nil) (hr : r ≠ Cartesian.CTree.nil)
    (hhl : Cartesian.CTree.isHeap l = true) (hhr : Cartesian.CTree.isHeap r = true)
    (hsl : l.sortedKeys) (hsr : r.sortedKeys)
    (hk : Cartesian.CTree.keysLess l r = true) :
    Cartesian.CTree.rootPrio (Cartesian.Merge l r) =
      (if Cartesian.CTree.prioOf l < Cartesian.CTree.prioOf r then Cartesian.CTree.rootPrio l
       else Cartesian.CTree.rootPrio r) ∧
    (Cartesian.Merge l r).inorder = l.inorder ++ r.inorder ∧
    Cartesian.CTree.isHeap (Cartesian.Merge l r) = true ∧
    (Cartesian.Merge l r).sortedKeys := by
  refine ⟨Cartesian.Merge_root l r hl hr, Cartesian.Merge_inorder l r, ?_, ?_⟩
  · exact Cartesian.mergeF_isHeap (l.size + r.size) l r (Nat.le_refl _) hhl hhr
  · unfold Cartesian.CTree.sortedKeys
    rw [Cartesian.Merge_inorder l r]
    rw [List.pairwise_append]
    refine ⟨hsl, hsr, ?_⟩
    intro a ha b hb
    simp only [Cartesian.CTree.keysLess, List.all_eq_true] at hk
    exact hk a ha b hb

/-- Witness for the C8 amended theorem at the concrete treaps c8L and c8R. -/
theorem treap_merge_smaller_priority_root_witness :
    (Cartesian.CTree.isHeap c8L = true ∧ Cartesian.CTree.isHeap c8R = true ∧
      Cartesian.CTree.keysLess c8L c8R = true) ∧
    (Cartesian.CTree.rootPrio (Cartesian.Merge c8L c8R) =
      (if Cartesian.CTree.prioOf c8L < Cartesian.CTree.prioOf c8R then
        Cartesian.CTree.rootPrio c8L
       else Cartesian.CTree.rootPrio c8R) ∧
    (Cartesian.Merge c8L c8R).inorder = c8L.inorder ++ c8R.inorder ∧
    Cartesian.CTree.isHeap (Cartesian.Merge c8L c8R) = true ∧
    (Cartesian.Merge c8L c8R).sortedKeys) :=
  ⟨⟨by decide, by decide, by decide⟩,
    treap_merge_smaller_priority_root c8L c8R (by decide) (by decide) (by decide) (by decide)
      (by unfold Cartesian.CTree.sortedKeys; decide)
      (by unfold Cartesian.CTree.sortedKeys; decide) (by decide)⟩

/-- C9: the claim states that a treap constructed with an externally
supplied 32-bit seed is deterministic given that seed.  No constructor of
CartesianTree (or SkipList) accepts a seed: priorities come from a single
process-wide generator seeded from std::random_device.  Modelling that
shared generator as a stream of draws, two CartesianTree instances built
in the same process by the identical operation sequence insert 10;
insert 20 consume different segments of the stream and end up with
different internal structures (the first keeps the sentinel as root, the
second roots at the key 10). -/
theorem treap_same_ops_different_structure_in_one_process :
    Cartesian.CTree.rootVal c9Run1.1 = some none ∧
    Cartesian.CTree.rootVal c9Run2.1 = some (some 10) ∧
    c9Run1.1 ≠ c9Run2.1 := by decide

/-- C10: cursor equality is a total boolean function in every variant (the
IsEqual bodies contain no throw) and returns true only when the two
cursors hold the same node address; the AVL and splay versions first check
the dynamic type and answer false for a cursor of another variant, the
Cartesian version compares the single stored address through a
static_pointer_cast, and since nodes of different set instances or
different variants are distinct allocations, any two cursors with
different addresses - in particular cursors of different instances or
different variants - compare false. -/
theorem cursor_isequal_total_and_exact :
    ∀ a b : Cursor.ItImpl,
      (Cursor.avlIsEqual a b = true ↔ (b.variant = Cursor.Variant.avl ∧ a.it = b.it)) ∧
      (Cursor.splayIsEqual a b = true ↔ (b.variant = Cursor.Variant.splay ∧ a.it = b.it)) ∧
      (Cursor.cartesianIsEqual a b = true ↔ a.it = b.it) ∧
      (a.it ≠ b.it →
        Cursor.avlIsEqual a b = false ∧ Cursor.splayIsEqual a b = false ∧
          Cursor.cartesianIsEqual a b = false) := by
  intro a b
  refine ⟨?_, ?_, ?_, ?_⟩
  · by_cases h : b.variant = Cursor.Variant.avl <;>
      simp [Cursor.avlIsEqual, Cursor.dynCast, h]
  · by_cases h : b.variant = Cursor.Variant.splay <;>
      simp [Cursor.splayIsEqual, Cursor.dynCast, h]
  · simp [Cursor.cartesianIsEqual]
  · intro hne
    refine ⟨?_, ?_, ?_⟩
    · by_cases h : b.variant = Cursor.Variant.avl <;>
        simp [Cursor.avlIsEqual, Cursor.dynCast, h, hne]
    · by_cases h : b.variant = Cursor.Variant.splay <;>
        simp [Cursor.splayIsEqual, Cursor.dynCast, h, hne]
    · simp [Cursor.cartesianIsEqual, hne]

/-- Witness for C10 at two concrete cursors of different variants and
different node addresses. -/
theorem cursor_isequal_total_and_exact_witness :
    (Cursor.ItImpl.mk Cursor.Variant.avl 0).it ≠ (Cursor.ItImpl.mk Cursor.Variant.cartesian 1).it ∧
    (Cursor.avlIsEqual (Cursor.ItImpl.mk Cursor.Variant.avl 0)
        (Cursor.ItImpl.mk Cursor.Variant.cartesian 1) = false ∧
      Cursor.splayIsEqual (Cursor.ItImpl.mk Cursor.Variant.avl 0)
        (Cursor.ItImpl.mk Cursor.Variant.cartesian 1) = false ∧
      Cursor.cartesianIsEqual (Cursor.ItImpl.mk Cursor.Variant.avl 0)
        (Cursor.ItImpl.mk Cursor.Variant.cartesian 1) = false) :=
  ⟨by decide,
    (cursor_isequal_total_and_exact (Cursor.ItImpl.mk Cursor.Variant.avl 0)
      (Cursor.ItImpl.mk Cursor.Variant.cartesian 1)).2.2.2 (by decide)⟩
